import Mathlib

/-!
Verification of the local-sent transfer core (TypeScript sources under
`src/`).  The development shallowly embeds the pure logic of
`src/utils.ts` (path normalization), `src/transfer.ts` (framing, pairing
state, resume-offset computation, the receiver session) and
`src/tlsTrust.ts` (fingerprint pinning and the known-hosts store).

Modelling conventions:
* Machine strings are Lean `String`s; all string processing is done on
  `List Char` with structural recursion so that concrete instances reduce
  in the kernel.  JavaScript `trim` is modelled on the ASCII whitespace
  characters; `toLowerCase` is modelled by `Char.toLower` (ASCII); pair
  codes, fingerprints, paths and host names in this code base are ASCII.
* JavaScript numbers used as byte counts and timestamps are modelled as
  `Int` (`file_size`, offsets, `Date.now()` values) or `Nat` (ports,
  buffer lengths); none of the modelled code paths perform fractional or
  overflowing arithmetic.
* SHA-256 itself is not modelled; every definition that hashes takes an
  explicit `hash : List Nat → String` parameter, and the streaming hasher
  state is represented by the list of bytes absorbed so far.  This is
  faithful to the code, which only creates hashes, feeds them bytes, and
  compares the final hex digests for equality.
* Filesystem effects are represented by explicit inputs/outputs: the
  selected temp file is an input (`Option TempFileInfo`), written payload
  bytes and the deletion of the temp file are outputs, and the
  known-hosts file write is returned as the serialized string.
* JavaScript truthiness on `string | null` values (`!s`) is modelled by
  `optFalsy`, which is true exactly for `null` and `""`.
-/

/-- ASCII whitespace recognised by the model of JavaScript `String.trim`. -/
def isJsSpace (c : Char) : Bool :=
  c == ' ' || c == '\t' || c == '\n' || c == '\r' || c == '\x0b' || c == '\x0c'

/-- Trim leading and trailing whitespace from a character list. -/
def trimChars (l : List Char) : List Char :=
  ((l.dropWhile isJsSpace).reverse.dropWhile isJsSpace).reverse

/-- Model of JavaScript `String.prototype.trim` on ASCII data. -/
def trimStr (s : String) : String := ⟨trimChars s.toList⟩

/-- List version of `startsWith`: does the second list start with the first? -/
def startsWithL : List Char → List Char → Bool
  | [], _ => true
  | _ :: _, [] => false
  | p :: ps, c :: cs => p == c && startsWithL ps cs

/-- Does the list contain the pattern as a contiguous sublist
(model of JavaScript `String.prototype.includes`)? -/
def hasSubstr (pat : List Char) : List Char → Bool
  | [] => startsWithL pat []
  | c :: rest => startsWithL pat (c :: rest) || hasSubstr pat rest

/-- Model of JavaScript `s.startsWith(pre)`. -/
def startsWithStr (s pre : String) : Bool := startsWithL pre.toList s.toList

/-- Model of JavaScript `s.includes(pat)`. -/
def strIncludes (s pat : String) : Bool := hasSubstr pat.toList s.toList

/-- Model of JavaScript `s.toLowerCase()` on ASCII data. -/
def toLowerStr (s : String) : String := ⟨s.toList.map Char.toLower⟩

/-- Split a character list on `'/'`; like JavaScript `s.split("/")`,
empty fields are kept. -/
def splitSlashAux : List Char → List Char → List (List Char)
  | [], cur => [cur.reverse]
  | c :: rest, cur =>
    if c == '/' then cur.reverse :: splitSlashAux rest []
    else splitSlashAux rest (c :: cur)

/-- Split a character list on `'/'`. -/
def splitSlash (l : List Char) : List (List Char) := splitSlashAux l []

/-- One step of Node's `normalizeString` (path.posix): empty and `.`
segments are dropped; `..` pops the previous real segment, and is kept
only for relative paths (`allowAboveRoot`) when there is nothing left to
pop.  The accumulator holds the segments in reverse order. -/
def stepComp (allowAboveRoot : Bool) (acc : List (List Char)) (c : List Char) :
    List (List Char) :=
  if c == [] || c == ['.'] then acc
  else if c == ['.', '.'] then
    match acc with
    | [] => if allowAboveRoot then [['.', '.']] else []
    | top :: rest =>
      if top == ['.', '.'] then
        (if allowAboveRoot then ['.', '.'] :: acc else acc)
      else rest
  else c :: acc

/-- Resolve `.`, `..` and empty segments of a split path,
following Node's `path.posix.normalize` segment pass. -/
def normalizeComponents (allowAboveRoot : Bool) (cs : List (List Char)) :
    List (List Char) :=
  (cs.foldl (stepComp allowAboveRoot) []).reverse

/-- Join path components with `'/'`. -/
def joinComponents : List (List Char) → List Char
  | [] => []
  | [x] => x
  | x :: rest => x ++ '/' :: joinComponents rest

/-- Model of Node's `path.posix.normalize`: resolves `.` and `..`
segments, collapses repeated slashes, preserves a leading slash of an
absolute path and a trailing slash, and returns `"."` for an empty
result. -/
def posixNormalize (p : String) : String :=
  let cs := p.toList
  if cs == [] then "."
  else
    let isAbs := cs.head? == some '/'
    let hasTrailing := cs.getLast? == some '/'
    let core := joinComponents (normalizeComponents (!isAbs) (splitSlash cs))
    if core == [] then
      (if isAbs then "/" else if hasTrailing then "./" else ".")
    else
      let core' := if hasTrailing then core ++ ['/'] else core
      if isAbs then ⟨'/' :: core'⟩ else ⟨core'⟩

/-- Replace every backslash by a forward slash
(`input.replace(/\\/g, "/")` in `normalizeTransferPath`). -/
def replaceBackslashes (s : String) : String :=
  ⟨s.toList.map (fun c => if c == '\\' then '/' else c)⟩

/-- Strip leading slashes (`.replace(/^\/+/, "")`). -/
def dropLeadingSlashes (s : String) : String :=
  ⟨s.toList.dropWhile (fun c => c == '/')⟩

/-- The processed form `normalizeTransferPath` tests: backslashes
replaced, trimmed, POSIX-normalized, leading slashes stripped
(`src/utils.ts` lines 58-60). -/
def processedTransferPath (input : String) : String :=
  dropLeadingSlashes (posixNormalize (trimStr (replaceBackslashes input)))

/-- The rejection condition of `normalizeTransferPath`
(`src/utils.ts` line 62). -/
def rejectedNormalizedForm (s : String) : Bool :=
  s == "" || s == "." || s == ".." || startsWithStr s "../" || strIncludes s "/../"

/-- Model of `normalizeTransferPath` (`src/utils.ts` lines 58-67). -/
def normalizeTransferPath (input : String) : Except String String :=
  let normalized := processedTransferPath input
  if rejectedNormalizedForm normalized then .error "invalid relative path"
  else .ok normalized

/-! ## Wire records (`src/protocol.ts`) -/

/-- Wire header record.  A missing `sha256` field is represented by `""`,
which the receiver's falsiness check treats identically
(`!header.sha256`). -/
structure TransferHeader where
  type : String
  version : Int
  relativePath : String
  fileSize : Int
  sha256 : String
  pairCode : Option String
deriving Repr, DecidableEq

/-- Wire ack record (fields of `AckMessage`; `ok=true` acks carry no
`message`).  An `Option` field that is `none` is absent from the emitted
JSON (`JSON.stringify` drops `undefined`). -/
structure AckMessage where
  ok : Bool
  message : Option String
  sha256 : Option String
  receivedBytes : Option Int
  savedPath : Option String
  resumedFrom : Option Int
  nextPairCode : Option String
deriving Repr, DecidableEq

/-! ## Pairing state (`src/transfer.ts` lines 91-96, 241-272, 983-1011) -/

/-- Receiver-side pairing state shared by all sessions. -/
structure PairingState where
  currentCode : Option String
  previousCode : Option String
  previousCodeValidUntilMs : Int
  activeTransfers : Int
deriving Repr, DecidableEq

/-- JavaScript falsiness of a `string | null` value: `null` and `""`. -/
def optFalsy : Option String → Bool
  | none => true
  | some s => s == ""

/-- JavaScript strict equality between a `string | undefined` and a
`string | null` value: true only when both are strings and equal. -/
def strictEqOpt : Option String → Option String → Bool
  | some a, some b => a == b
  | _, _ => false

/-- Model of `isPairCodeAccepted` (`src/transfer.ts` lines 983-998).
`now` stands for the `Date.now()` call inside the function. -/
def isPairCodeAccepted (st : PairingState) (incomingCode : Option String)
    (now : Int) : Bool :=
  if optFalsy st.currentCode then true
  else if strictEqOpt incomingCode st.currentCode then true
  else if !optFalsy st.previousCode && strictEqOpt incomingCode st.previousCode
      && decide (now ≤ st.previousCodeValidUntilMs) then true
  else false

/-- The admission rule exactly as the specification words it (claim C4):
accept when `current_code` is null, when the header code equals the
current code, or when it equals a non-null previous code that is still
within its validity window. -/
def pairAdmissionClaim (st : PairingState) (incomingCode : Option String)
    (now : Int) : Prop :=
  st.currentCode = none ∨ incomingCode = st.currentCode ∨
    (st.previousCode ≠ none ∧ incomingCode = st.previousCode ∧
      now ≤ st.previousCodeValidUntilMs)

instance (st : PairingState) (incomingCode : Option String) (now : Int) :
    Decidable (pairAdmissionClaim st incomingCode now) := by
  unfold pairAdmissionClaim; infer_instance

/-- The regeneration loop shared by `rotatePairCode` and
`rotatePairCodeOnce`: the generator's calls are `g 0, g 1, ...`; the
first call is always made, then while the value still equals the old
code up to `fuel` more calls are made.  `old` is an `Option` because
`rotatePairCodeOnce` compares against a possibly-null current code with
JavaScript strict equality. -/
def genRetry (g : Nat → String) (old : Option String) : Nat → Nat → String
  | i, 0 => g i
  | i, fuel + 1 => if some (g i) = old then genRetry g old (i + 1) fuel else g i

/-- Model of `rotatePairCodeOnce` (`src/transfer.ts` lines 1000-1011):
generates a code distinct from the current one (up to 5 retries),
installs it and clears the previous-code grace window. -/
def rotatePairCodeOnce (st : PairingState) (g : Nat → String) :
    PairingState × String :=
  let nextCode := genRetry g st.currentCode 0 5
  ({ st with currentCode := some nextCode, previousCode := none,
             previousCodeValidUntilMs := 0 }, nextCode)

/-- Rotation reason, `"once" | "ttl"`. -/
inductive RotateReason
  | once
  | ttl
deriving Repr, DecidableEq

/-- JavaScript truthiness of the captured `ttlMs : number | null`. -/
def intTruthy : Option Int → Bool
  | none => false
  | some v => v != 0

/-- Model of the `rotatePairCode` closure in `startReceiver`
(`src/transfer.ts` lines 241-262).  Returns the new state and the code
reported to `onPairCodeChange` (`none` when rotation was skipped). -/
def rotatePairCode (st : PairingState) (gen : Option (Nat → String))
    (ttlMs : Option Int) (now : Int) (reason : RotateReason) :
    PairingState × Option String :=
  match gen with
  | none => (st, none)
  | some g =>
    match st.currentCode with
    | none => (st, none)
    | some oldCode =>
      if oldCode == "" then (st, none)
      else
        let nextCode := genRetry g (some oldCode) 0 5
        if reason = RotateReason.ttl ∧ intTruthy ttlMs then
          ({ st with currentCode := some nextCode, previousCode := some oldCode,
                     previousCodeValidUntilMs := now + ttlMs.getD 0 }, some nextCode)
        else
          ({ st with currentCode := some nextCode, previousCode := none,
                     previousCodeValidUntilMs := 0 }, some nextCode)

/-- Model of one TTL timer tick (`src/transfer.ts` lines 264-272): skip
silently while transfers are active, otherwise rotate with reason
`"ttl"`. -/
def ttlTick (st : PairingState) (gen : Option (Nat → String))
    (ttlMs : Option Int) (now : Int) : PairingState :=
  if 0 < st.activeTransfers then st
  else (rotatePairCode st gen ttlMs now RotateReason.ttl).1

/-! ## Control-record framing (`src/transfer.ts` lines 111-216,
`src/constants.ts`) -/

/-- The constant `HEADER_MAX_BYTES` from `src/constants.ts`. -/
def HEADER_MAX_BYTES : Nat := 64 * 1024

/-- Index of the first newline byte in the buffer
(`buffer.indexOf(0x0a)`). -/
def findNewlineIdx : List Nat → Option Nat
  | [] => none
  | b :: rest => if b = 10 then some 0 else (findNewlineIdx rest).map (· + 1)

/-- Socket events observed by `SocketReader`: a `data` chunk or the
`end`/`close` notification. -/
inductive ReadEvent
  | data (chunk : List Nat)
  | endOfStream
deriving Repr, DecidableEq

/-- Outcome of `readLineMessage`: the extracted line (before JSON
decoding) together with the residual buffered bytes, a thrown error, or
an eternal wait because no further events arrive. -/
inductive ReadOutcome
  | ok (line rest : List Nat)
  | fail (msg : String)
  | blocked
deriving Repr, DecidableEq

/-- One pass over the buffered bytes as performed at the top of the
`readLineMessage` loop (`src/transfer.ts` lines 135-151): extract a line
when a newline is buffered, otherwise fail on the size bound or on
end-of-stream; `none` means the loop waits for the next socket event. -/
def readLineStepOnce (label : String) (buffer : List Nat) (ended : Bool) :
    Option ReadOutcome :=
  match findNewlineIdx buffer with
  | some i => some (.ok (buffer.take i) (buffer.drop (i + 1)))
  | none =>
    if HEADER_MAX_BYTES < buffer.length then some (.fail (label ++ " too large"))
    else if ended then some (.fail ("connection closed before " ++ label))
    else none

/-- Model of `SocketReader.readLineMessage` (`src/transfer.ts` lines
131-155): the loop first looks for a newline in the buffer, then checks
the size bound, then the end-of-stream flag, and otherwise waits for the
next socket event (`data` grows the buffer, `end`/`close` set the ended
flag).  The successful result is the raw line; the code then trims it
and JSON-decodes it (`decodeJsonLine`). -/
def readLineMessage (label : String) : List Nat → Bool → List ReadEvent → ReadOutcome
  | buffer, ended, [] =>
    match readLineStepOnce label buffer ended with
    | some r => r
    | none => .blocked
  | buffer, ended, .data c :: rest =>
    match readLineStepOnce label buffer ended with
    | some r => r
    | none => readLineMessage label (buffer ++ c) ended rest
  | buffer, ended, .endOfStream :: rest =>
    match readLineStepOnce label buffer ended with
    | some r => r
    | none => readLineMessage label buffer true rest

/-! ## Resume-offset computation (`src/transfer.ts` lines 767-808) -/

/-- The state of the selected temp file: whether `stat` reports a regular
file, and its byte content.  `none` models `ENOENT`. -/
structure TempFileInfo where
  isFile : Bool
  content : List Nat
deriving Repr, DecidableEq

/-- Model of `decideResumeOffset` (`src/transfer.ts` lines 767-808).
Returns the resume offset together with the bytes fed into the session
hasher (`updateHashFromFilePrefix` reads the first `size` bytes, which
for the file itself is its whole content).  `sha256File` on the temp file
is `hash info.content`. -/
def decideResumeOffset (hash : List Nat → String) (tempFile : Option TempFileInfo)
    (expectedSize : Int) (expectedSha256 : String) :
    Except String (Int × List Nat) :=
  match tempFile with
  | none => .ok (0, [])
  | some info =>
    if !info.isFile then .error "target path is not a regular file"
    else
      let size : Int := info.content.length
      if size ≤ 0 then .ok (0, [])
      else if expectedSize < size then .ok (0, [])
      else if size = expectedSize then
        if hash info.content ≠ expectedSha256 then .ok (0, [])
        else .ok (size, info.content)
      else .ok (size, info.content)

/-! ## TLS trust (`src/tlsTrust.ts`) -/

/-- Is the character a lowercase hex digit? -/
def isLowerHexDigit (c : Char) : Bool :=
  ('0' ≤ c && c ≤ '9') || ('a' ≤ c && c ≤ 'f')

/-- Model of `normalizeFingerprint` (`src/tlsTrust.ts` lines 20-26):
drop colons, trim, lowercase, then require 64 lowercase hex characters. -/
def normalizeFingerprint (input : String) : Except String String :=
  let cs := (trimChars (input.toList.filter (fun c => !(c == ':')))).map Char.toLower
  if cs.length == 64 && cs.all isLowerHexDigit then .ok ⟨cs⟩
  else .error "TLS fingerprint must be SHA-256 hex (64 chars, colon optional)"

/-- Model of `buildEndpointKey` (`src/tlsTrust.ts` lines 75-77). -/
def buildEndpointKey (host : String) (port : Nat) : String :=
  toLowerStr host ++ ":" ++ toString port

/-- First-binding lookup in an association list, modelling a JavaScript
object property read. -/
def lookupStr : List (String × String) → String → Option String
  | [], _ => none
  | (k, v) :: rest, key => if k == key then some v else lookupStr rest key

/-- Lookup combined with the truthiness test `if (knownFingerprint)`:
an empty-string value counts as absent. -/
def lookupTruthy (m : List (String × String)) (key : String) : Option String :=
  match lookupStr m key with
  | some v => if v == "" then none else some v
  | none => none

/-- JavaScript object property assignment `obj[k] = v`: replace the
existing binding in place, or append a new one. -/
def setKey : List (String × String) → String → String → List (String × String)
  | [], k, v => [(k, v)]
  | (k0, v0) :: rest, k, v =>
    if k0 == k then (k0, v) :: rest else (k0, v0) :: setKey rest k v

/-- Stable insertion of an entry into a list ordered by a JavaScript
sort comparator; a non-positive comparator value keeps the inserted
element first, so equal keys preserve their original order. -/
def insertByCmp (cmp : String → String → Int) (x : String × String) :
    List (String × String) → List (String × String)
  | [] => [x]
  | y :: rest =>
    if cmp x.1 y.1 ≤ 0 then x :: y :: rest else y :: insertByCmp cmp x rest

/-- Sort entries by key under a JavaScript comparator, modelling
`Object.entries(data).sort(([a], [b]) => a.localeCompare(b))`: a stable
sort ordered by the comparator.  `localeCompare` with no locale argument
performs ICU/CLDR collation under the runtime's default locale — an
environment-dependent external function (under CLDR, punctuation such as
`:` orders before digits, unlike code points) — so the comparator is
kept abstract as the `cmp` parameter rather than modelled. -/
def sortByKey (cmp : String → String → Int)
    (l : List (String × String)) : List (String × String) :=
  l.foldr (insertByCmp cmp) []

/-- Lowercase hex digit of a value below 16. -/
def hexDigit (n : Nat) : Char :=
  if n < 10 then Char.ofNat (48 + n) else Char.ofNat (87 + n)

/-- JSON string escaping as performed by `JSON.stringify` on the
characters that can occur here. -/
def jsonEscapeChar (c : Char) : List Char :=
  if c == '"' then ['\\', '"']
  else if c == '\\' then ['\\', '\\']
  else if c == '\n' then ['\\', 'n']
  else if c == '\t' then ['\\', 't']
  else if c == '\r' then ['\\', 'r']
  else if c == '\x08' then ['\\', 'b']
  else if c == '\x0c' then ['\\', 'f']
  else if c.toNat < 32 then
    ['\\', 'u', '0', '0', hexDigit (c.toNat / 16), hexDigit (c.toNat % 16)]
  else [c]

/-- Escape a string for inclusion in a JSON document. -/
def jsonEscape (s : String) : String :=
  ⟨s.toList.foldr (fun c acc => jsonEscapeChar c ++ acc) []⟩

/-- Model of `JSON.stringify(obj, null, 2)` for a string-to-string
object: two-space indentation, one `"key": "value"` member per line. -/
def jsonStringifyPretty (entries : List (String × String)) : String :=
  match entries with
  | [] => "\x7b\x7d"
  | _ =>
    "\x7b\n" ++
      String.intercalate ",\n"
        (entries.map (fun e => "  \"" ++ jsonEscape e.1 ++ "\": \"" ++ jsonEscape e.2 ++ "\"")) ++
      "\n\x7d"

/-- Model of `saveKnownHosts` (`src/tlsTrust.ts` lines 101-107): the
file content written back, the entries ordered by the `localeCompare`
comparator `cmp`. -/
def saveKnownHosts (cmp : String → String → Int)
    (data : List (String × String)) : String :=
  jsonStringifyPretty (sortByKey cmp data) ++ "\n"

/-- Inputs of `verifyTlsPeer`: the peer certificate fingerprint already
computed by `getPeerFingerprint`, the endpoint, the pinning options and
the known-hosts map loaded by `loadKnownHosts`. -/
structure VerifyInput where
  peerFingerprint : String
  host : String
  port : Nat
  expectedFingerprint : Option String
  trustOnFirstUse : Bool
  knownHosts : List (String × String)

/-- Outcome of `verifyTlsPeer`: a thrown error, or success optionally
accompanied by a known-hosts map written back to disk. -/
inductive VerifyOutcome
  | failed (message : String)
  | trusted (write : Option (List (String × String)))
deriving Repr, DecidableEq

/-- The trust-on-first-use stage of `verifyTlsPeer`
(`src/tlsTrust.ts` lines 53-73). -/
def tofuStage (inp : VerifyInput) : VerifyOutcome :=
  if !inp.trustOnFirstUse then .trusted none
  else
    let endpoint := buildEndpointKey inp.host inp.port
    match lookupTruthy inp.knownHosts endpoint with
    | some knownFingerprint =>
      if knownFingerprint != inp.peerFingerprint then
        .failed ("TLS fingerprint changed for " ++ endpoint ++ ": expected=" ++
          knownFingerprint ++ " actual=" ++ inp.peerFingerprint)
      else .trusted none
    | none => .trusted (some (setKey inp.knownHosts endpoint inp.peerFingerprint))

/-- Model of `verifyTlsPeer` (`src/tlsTrust.ts` lines 40-73).  The
expected-pin branch runs only when `expectedFingerprint` is truthy. -/
def verifyTlsPeer (inp : VerifyInput) : VerifyOutcome :=
  if optFalsy inp.expectedFingerprint then tofuStage inp
  else
    match normalizeFingerprint (inp.expectedFingerprint.getD "") with
    | .error m => .failed m
    | .ok expected =>
      if inp.peerFingerprint != expected then
        .failed ("TLS fingerprint mismatch: expected=" ++ expected ++
          " actual=" ++ inp.peerFingerprint)
      else .trusted none

/-! ## Receiver session (`src/transfer.ts` lines 460-667) -/

/-- The decision returned by the optional `confirmTransfer` hook: a bare
boolean or a `{ accept, message? }` object. -/
inductive TransferConfirmDecision
  | plain (accept : Bool)
  | detailed (accept : Bool) (message : Option String)
deriving Repr, DecidableEq

/-- Rejection message of the confirmation step (`src/transfer.ts` lines
555-570): `none` means the transfer continues (hook absent or
accepting); `some msg` is the failure message. -/
def confirmOutcome : Option TransferConfirmDecision → Option String
  | none => none
  | some (.plain true) => none
  | some (.plain false) => some "receiver rejected transfer"
  | some (.detailed true _) => none
  | some (.detailed false message) =>
    let t := trimStr (message.getD "")
    some (if t == "" then "receiver rejected transfer" else t)

/-- The receiver configuration fields the session logic reads, from
`ListenOptions`.  `confirmTransfer` is the decision the installed hook
returns for this session (`none` when no hook is installed). -/
structure ListenConfig where
  outputDir : String
  rotatePairCodePerTransfer : Bool
  generatePairCode : Option (Nat → String)
  confirmTransfer : Option TransferConfirmDecision

/-- Per-session inputs: the outcome of reading the header line, the
state of the selected temp file, the payload chunks delivered after
`ready` (the list ending models the peer's half-close), and the session
wall-clock used for pair admission. -/
structure SessionInput where
  headerResult : Except String TransferHeader
  tempFile : Option TempFileInfo
  payloadChunks : List (List Nat)
  now : Int

/-- Result of the payload loop: a thrown error message (if any), the
final `received` counter, and the bytes written to the temp file. -/
structure PayloadOutcome where
  err : Option String
  received : Int
  written : List Nat
deriving Repr, DecidableEq

/-- Model of the payload loop (`src/transfer.ts` lines 598-617 and
`writePayload`, lines 879-908): consume chunks while `received <
fileSize`; empty chunks are ignored; a chunk overshooting `fileSize`
throws; any chunk with no open file stream (`fileOpen = false`, the
already-complete-resume case) throws. -/
def consumePayload (fileSize : Int) (fileOpen : Bool) :
    Int → List (List Nat) → PayloadOutcome
  | received, [] => ⟨none, received, []⟩
  | received, c :: rest =>
    if received < fileSize then
      if c == [] then consumePayload fileSize fileOpen received rest
      else if fileSize < received + (c.length : Int) then
        ⟨some "payload exceeds declared file size", received, []⟩
      else if !fileOpen then
        ⟨some "unexpected payload for already complete file", received, []⟩
      else
        let r := consumePayload fileSize fileOpen (received + (c.length : Int)) rest
        ⟨r.err, r.received, c ++ r.written⟩
    else ⟨none, received, []⟩

/-- Terminal outcome of a receiver session: a `ready{ok:false}` sent
before the ready frame, an `ack{ok:false}` sent after it, or the
successful ack. -/
inductive SessionResult
  | readyFail (message : String)
  | ackFail (message : String)
  | ackOk (ack : AckMessage)
deriving Repr, DecidableEq

/-- The mutations a session applies to the shared pairing state, in
order: the entry increment, an optional per-transfer rotation, and the
clamped decrement in the `finally` block. -/
inductive PairingOp
  | incrActive
  | rotateOnce (nextCode : String)
  | decrActive
deriving Repr, DecidableEq

/-- Effect of one pairing-state mutation. -/
def applyPairingOp : PairingOp → PairingState → PairingState
  | .incrActive, st => { st with activeTransfers := st.activeTransfers + 1 }
  | .rotateOnce nextCode, st =>
    { st with currentCode := some nextCode, previousCode := none,
              previousCodeValidUntilMs := 0 }
  | .decrActive, st => { st with activeTransfers := max 0 (st.activeTransfers - 1) }

/-- Apply a list of pairing-state mutations in order. -/
def applyPairingOps (ops : List PairingOp) (st : PairingState) : PairingState :=
  ops.foldl (fun s op => applyPairingOp op s) st

/-- Output of the session body (the `try` block): the emitted terminal
frame, the pairing state after the body, the rotation operations it
performed, the bytes written to the temp file, and whether the temp file
was deleted (`fail(message, cleanup=true)`). -/
structure BodyOutput where
  result : SessionResult
  pairing : PairingState
  ops : List PairingOp
  writtenBytes : List Nat
  tempDeleted : Bool

/-- The before-`ready` stages of the `try` block of
`handleIncomingSocket` (`src/transfer.ts` lines 529-577): read and
validate the header, snapshot the required pair code and check
admission, normalize the target path (`selectReceivePaths` via
`resolveOutputPath`), consult the confirm hook, and compute the resume
offset.  Any error here is emitted as `ready{ok:false}`.  On success it
yields the header, the normalized relative path, the resume offset and
the bytes seeded into the hasher. -/
def sessionPrelude (hash : List Nat → String) (cfg : ListenConfig)
    (st : PairingState) (inp : SessionInput) :
    Except String (TransferHeader × String × Int × List Nat) :=
  match inp.headerResult with
  | .error msg => .error msg
  | .ok header =>
    if header.type != "header" then .error "protocol error: expected header"
    else if header.version != 1 || decide (header.fileSize < 0) || header.sha256 == "" then
      .error "invalid header fields"
    else if !isPairCodeAccepted st header.pairCode inp.now then
      .error "pair code mismatch"
    else
      match normalizeTransferPath header.relativePath with
      | .error msg => .error msg
      | .ok normalized =>
        match confirmOutcome cfg.confirmTransfer with
        | some msg => .error msg
        | none =>
          match decideResumeOffset hash inp.tempFile header.fileSize header.sha256 with
          | .error msg => .error msg
          | .ok (resumedFrom, seed) => .ok (header, normalized, resumedFrom, seed)

/-- The success tail of the session (`src/transfer.ts` lines 634-659):
promotion (abstracted to the chosen final path), the per-transfer
rotation decision with the `requiredPairCodeForThisTransfer` snapshot
(`st.currentCode`, unchanged during the body), and the ack.  `received`
equals `header.fileSize` here. -/
def successTail (cfg : ListenConfig) (st : PairingState)
    (normalized : String) (resumedFrom received : Int) (digest : String)
    (written : List Nat) : BodyOutput :=
  let savedPath := cfg.outputDir ++ "/" ++ normalized
  let ackBase : Option String → AckMessage := fun next =>
    ⟨true, none, some digest, some received, some savedPath, some resumedFrom, next⟩
  match cfg.generatePairCode with
  | some g =>
    if !optFalsy st.currentCode && cfg.rotatePairCodePerTransfer then
      let rotated := rotatePairCodeOnce st g
      ⟨.ackOk (ackBase (some rotated.2)), rotated.1, [.rotateOnce rotated.2],
        written, false⟩
    else if !optFalsy st.currentCode then
      ⟨.ackOk (ackBase st.currentCode), st, [], written, false⟩
    else ⟨.ackOk (ackBase none), st, [], written, false⟩
  | none =>
    if !optFalsy st.currentCode then
      ⟨.ackOk (ackBase st.currentCode), st, [], written, false⟩
    else ⟨.ackOk (ackBase none), st, [], written, false⟩

/-- Model of the `try` block of `handleIncomingSocket`
(`src/transfer.ts` lines 528-662), after the `activeTransfers`
increment.  `st` is the shared pairing state at entry (already
incremented).  Filesystem steps (`selectReceivePaths` duplicate probing,
`mkdir`, stream creation, `promoteReceivedFile` duplicate retries) are
abstracted: the selected temp file is `inp.tempFile`, and promotion
returns the chosen final path `outputDir ++ "/" ++ normalized`.  The
`fail` helper is modelled by the `readyFail`/`ackFail` results
(`cleanup = true` only on the digest mismatch). -/
def receiveBody (hash : List Nat → String) (cfg : ListenConfig)
    (st : PairingState) (inp : SessionInput) : BodyOutput :=
  match sessionPrelude hash cfg st inp with
  | .error msg => ⟨.readyFail msg, st, [], [], false⟩
  | .ok (header, normalized, resumedFrom, seed) =>
    let fileOpen := decide (resumedFrom < header.fileSize)
    let outcome := consumePayload header.fileSize fileOpen resumedFrom inp.payloadChunks
    match outcome.err with
    | some msg => ⟨.ackFail msg, st, [], outcome.written, false⟩
    | none =>
      if outcome.received != header.fileSize then
        ⟨.ackFail ("size mismatch: expected " ++ toString header.fileSize ++
            ", got " ++ toString outcome.received), st, [], outcome.written, false⟩
      else
        let digest := hash (seed ++ outcome.written)
        if digest != header.sha256 then
          ⟨.ackFail "sha256 mismatch", st, [], outcome.written, true⟩
        else
          successTail cfg st normalized resumedFrom outcome.received digest
            outcome.written

/-- Full observable output of one receiver session. -/
structure SessionOutput where
  result : SessionResult
  pairing : PairingState
  trace : List PairingOp
  writtenBytes : List Nat
  tempDeleted : Bool

/-- Model of `handleIncomingSocket` (`src/transfer.ts` lines 460-667):
increment `activeTransfers`, run the body, and apply the clamped
decrement of the `finally` block.  `trace` records the pairing-state
mutations in program order. -/
def receiveSession (hash : List Nat → String) (cfg : ListenConfig)
    (st0 : PairingState) (inp : SessionInput) : SessionOutput :=
  let stIn := applyPairingOp .incrActive st0
  let body := receiveBody hash cfg stIn inp
  { result := body.result,
    pairing := applyPairingOp .decrActive body.pairing,
    trace := .incrActive :: (body.ops ++ [.decrActive]),
    writtenBytes := body.writtenBytes,
    tempDeleted := body.tempDeleted }

/-! ## Helper lemmas -/

theorem isPairCodeAccepted_ignores_counter (st : PairingState)
    (c : Option String) (now n : Int) :
    isPairCodeAccepted { st with activeTransfers := n } c now =
      isPairCodeAccepted st c now := rfl

theorem ttlTick_skip (st : PairingState) (gen : Option (Nat → String))
    (ttlMs : Option Int) (now : Int) (h : 0 < st.activeTransfers) :
    ttlTick st gen ttlMs now = st := by
  unfold ttlTick
  simp [h]

theorem findNewlineIdx_eq_none {l : List Nat} (h : 10 ∉ l) :
    findNewlineIdx l = none := by
  induction l with
  | nil => rfl
  | cons b rest ih =>
    simp only [List.mem_cons, not_or] at h
    simp [findNewlineIdx, Ne.symm h.1, ih h.2]

theorem findNewlineIdx_append {line : List Nat} (rest : List Nat)
    (h : 10 ∉ line) :
    findNewlineIdx (line ++ 10 :: rest) = some line.length := by
  induction line with
  | nil => simp [findNewlineIdx]
  | cons b tail ih =>
    simp only [List.mem_cons, not_or] at h
    simp [findNewlineIdx, Ne.symm h.1, ih h.2]

theorem take_len_append (line rest : List Nat) (b : Nat) :
    (line ++ b :: rest).take line.length = line := by
  simp [List.take_left]

theorem drop_len_succ_append (line rest : List Nat) (b : Nat) :
    (line ++ b :: rest).drop (line.length + 1) = rest := by
  have h : line ++ b :: rest = (line ++ [b]) ++ rest := by simp
  have hlen : (line ++ [b]).length = line.length + 1 := by simp
  rw [h, ← hlen, List.drop_left]

/-! ## Claim C3: resume-offset computation -/

/-- C3: `decideResumeOffset`, given the temp file's size `s`, returns 0
when the temp file does not exist or `s ≤ 0`; 0 when `s > file_size`;
when `s = file_size`, `file_size` with the hasher seeded with the whole
file if the full-file digest equals the header digest and 0 otherwise;
and `s` with the hasher seeded with the first `s` bytes when
`0 < s < file_size`. -/
theorem decideResumeOffset_spec (hash : List Nat → String)
    (expectedSize : Int) (sha : String) :
    decideResumeOffset hash none expectedSize sha = .ok (0, []) ∧
    ∀ info : TempFileInfo, info.isFile = true →
      (((info.content.length : Int) ≤ 0 →
          decideResumeOffset hash (some info) expectedSize sha = .ok (0, [])) ∧
       (expectedSize < (info.content.length : Int) →
          decideResumeOffset hash (some info) expectedSize sha = .ok (0, [])) ∧
       ((info.content.length : Int) = expectedSize → hash info.content = sha →
          decideResumeOffset hash (some info) expectedSize sha =
            .ok (expectedSize, info.content)) ∧
       ((info.content.length : Int) = expectedSize → hash info.content ≠ sha →
          decideResumeOffset hash (some info) expectedSize sha = .ok (0, [])) ∧
       (0 < (info.content.length : Int) → (info.content.length : Int) < expectedSize →
          decideResumeOffset hash (some info) expectedSize sha =
            .ok ((info.content.length : Int), info.content))) := by
  refine ⟨rfl, fun info hfile => ⟨?_, ?_, ?_, ?_, ?_⟩⟩
  · intro h1
    have hlen : info.content.length = 0 := by omega
    simp [decideResumeOffset, hfile, hlen]
  · intro h1
    by_cases hpos : (info.content.length : Int) ≤ 0
    · have hlen : info.content.length = 0 := by omega
      simp [decideResumeOffset, hfile, hlen]
    · simp [decideResumeOffset, hfile, hpos, h1]
  · intro h1 h2
    by_cases hpos : (info.content.length : Int) ≤ 0
    · have hlen : info.content.length = 0 := by omega
      have hnil : info.content = [] := List.eq_nil_of_length_eq_zero hlen
      have hz : expectedSize = 0 := by omega
      simp [decideResumeOffset, hfile, hlen, hnil, hz]
    · have hle : ¬ expectedSize < (info.content.length : Int) := by omega
      have hpos2 : ¬ (expectedSize ≤ 0) := by omega
      simp [decideResumeOffset, hfile, hpos, hpos2, hle, h1, h2]
  · intro h1 h2
    by_cases hpos : (info.content.length : Int) ≤ 0
    · have hlen : info.content.length = 0 := by omega
      simp [decideResumeOffset, hfile, hlen]
    · have hle : ¬ expectedSize < (info.content.length : Int) := by omega
      have hpos2 : ¬ (expectedSize ≤ 0) := by omega
      simp [decideResumeOffset, hfile, hpos, hpos2, hle, h1, h2]
  · intro h1 h2
    have hpos : ¬ ((info.content.length : Int) ≤ 0) := by omega
    have hle : ¬ expectedSize < (info.content.length : Int) := by omega
    have hne : ¬ ((info.content.length : Int) = expectedSize) := by omega
    simp [decideResumeOffset, hfile, hpos, hle, hne]

/-- Witness for C3: concrete instances of every branch of
`decideResumeOffset_spec`. -/
theorem decideResumeOffset_spec_witness :
    decideResumeOffset (fun _ => "aa") none 5 "aa" = .ok (0, []) ∧
    decideResumeOffset (fun _ => "aa") (some ⟨true, []⟩) 5 "aa" = .ok (0, []) ∧
    decideResumeOffset (fun _ => "aa") (some ⟨true, [1, 2, 3]⟩) 2 "aa" = .ok (0, []) ∧
    decideResumeOffset (fun _ => "aa") (some ⟨true, [1, 2, 3]⟩) 3 "aa" =
      .ok (3, [1, 2, 3]) ∧
    decideResumeOffset (fun _ => "bb") (some ⟨true, [1, 2, 3]⟩) 3 "aa" = .ok (0, []) ∧
    decideResumeOffset (fun _ => "bb") (some ⟨true, [1, 2, 3]⟩) 7 "aa" =
      .ok (3, [1, 2, 3]) :=
  ⟨(decideResumeOffset_spec (fun _ => "aa") 5 "aa").1,
   ((decideResumeOffset_spec (fun _ => "aa") 5 "aa").2 ⟨true, []⟩ rfl).1 (by decide),
   ((decideResumeOffset_spec (fun _ => "aa") 2 "aa").2 ⟨true, [1, 2, 3]⟩ rfl).2.1 (by decide),
   ((decideResumeOffset_spec (fun _ => "aa") 3 "aa").2 ⟨true, [1, 2, 3]⟩ rfl).2.2.1
     (by decide) rfl,
   ((decideResumeOffset_spec (fun _ => "bb") 3 "aa").2 ⟨true, [1, 2, 3]⟩ rfl).2.2.2.1
     (by decide) (by decide),
   ((decideResumeOffset_spec (fun _ => "bb") 7 "aa").2 ⟨true, [1, 2, 3]⟩ rfl).2.2.2.2
     (by decide) (by decide)⟩

/-! ## Claim C4: pair-code admission -/

/-- C4 (counterexample to the claim as stated): with
`current_code = ""` (a non-null value reachable through the programmatic
`startReceiver` surface), `isPairCodeAccepted` accepts an arbitrary
header code, although none of the claim's three admission conditions
holds, because the JavaScript truthiness test `!pairingState.currentCode`
treats the empty string like null. -/
theorem isPairCodeAccepted_claim_counterexample :
    isPairCodeAccepted ⟨some "", none, 0, 0⟩ (some "123456") 0 = true ∧
    ¬ pairAdmissionClaim ⟨some "", none, 0, 0⟩ (some "123456") 0 := by
  constructor
  · rfl
  · decide

/-- C4 (amended): pair-code admission accepts a header iff the pairing
state's `current_code` is null or empty (any header accepted), or the
header's `pair_code` equals `current_code`, or the header's `pair_code`
equals a non-null non-empty `previous_code` and the current time is at
most `previous_valid_until_ms`. -/
theorem isPairCodeAccepted_amended (st : PairingState)
    (incomingCode : Option String) (now : Int) :
    isPairCodeAccepted st incomingCode now = true ↔
      (st.currentCode = none ∨ st.currentCode = some "" ∨
        incomingCode = st.currentCode ∨
        (∃ p, p ≠ "" ∧ st.previousCode = some p ∧ incomingCode = some p ∧
          now ≤ st.previousCodeValidUntilMs)) := by
  obtain ⟨cur, prev, valid, act⟩ := st
  unfold isPairCodeAccepted optFalsy strictEqOpt
  cases cur with
  | none => simp
  | some c =>
    cases incomingCode with
    | none =>
      by_cases hc : c = ""
      · subst hc; simp
      · simp only [Option.some.injEq]
        cases prev with
        | none => simp [hc]
        | some p =>
          by_cases hp : p = "" <;> simp [hc, hp]
    | some i =>
      by_cases hc : c = ""
      · subst hc; simp
      · by_cases hic : i = c
        · subst hic; simp [hc]
        · have hci : ¬ (c = i) := fun h => hic h.symm
          cases prev with
          | none => simp [hc, hic, hci]
          | some p =>
            by_cases hp : p = ""
            · subst hp
              simp [hc, hic, hci]
              exact fun x hx h1 _ => absurd h1.symm hx
            · by_cases hip : i = p
              · subst hip
                simp [hc, hic, hci, hp]
                exact ⟨fun h => ⟨i, hp, rfl, h⟩, fun ⟨x, hx, hxi, h⟩ => h⟩
              · have hpi : ¬ (p = i) := fun h => hip h.symm
                simp [hc, hic, hci, hp, hip, hpi]
                exact fun x hx h1 h2 => absurd (h2.trans h1.symm) hip

/-! ## Claim C5: TTL rotation tick -/

/-- C5: a TTL tick with `active_transfers > 0` leaves the pairing state
unchanged; with `active_transfers = 0` (and the tick's closure context:
a generator and a truthy `ttlMs = ttl_seconds * 1000`), it installs a
newly generated current code, stores the old current code as
`previous_code`, and sets `previous_valid_until_ms` to `now` plus the
TTL (in milliseconds). -/
theorem ttlRotation_spec (st : PairingState) (g : Nat → String)
    (ttlSeconds now : Int) :
    (0 < st.activeTransfers →
      ∀ gen ttlMs, ttlTick st gen ttlMs now = st) ∧
    (st.activeTransfers = 0 →
      ∀ old, st.currentCode = some old → old ≠ "" → 0 < ttlSeconds →
        ttlTick st (some g) (some (ttlSeconds * 1000)) now =
          { st with currentCode := some (genRetry g (some old) 0 5),
                    previousCode := some old,
                    previousCodeValidUntilMs := now + ttlSeconds * 1000 }) := by
  constructor
  · intro h gen ttlMs
    exact ttlTick_skip st gen ttlMs now h
  · intro h0 old hcur hold httl
    have hne : ¬ 0 < st.activeTransfers := by omega
    have hems : (ttlSeconds * 1000 : Int) ≠ 0 := by positivity
    unfold ttlTick rotatePairCode
    simp [hne, hcur, hold, intTruthy, hems]

/-- Witness for C5: a concrete skipped tick and a concrete rotation. -/
theorem ttlRotation_spec_witness :
    ttlTick ⟨some "777777", none, 0, 3⟩ (some (fun _ => "888888"))
        (some (2 * 1000)) 100 = ⟨some "777777", none, 0, 3⟩ ∧
    ttlTick ⟨some "777777", none, 0, 0⟩ (some (fun _ => "888888"))
        (some (2 * 1000)) 100 =
      ⟨some (genRetry (fun _ => "888888") (some "777777") 0 5),
        some "777777", 100 + 2 * 1000, 0⟩ :=
  ⟨(ttlRotation_spec ⟨some "777777", none, 0, 3⟩ (fun _ => "888888") 2 100).1
      (by decide) (some (fun _ => "888888")) (some (2 * 1000)),
   (ttlRotation_spec ⟨some "777777", none, 0, 0⟩ (fun _ => "888888") 2 100).2
      rfl "777777" rfl (by decide) (by decide)⟩

/-! ## Claim C6: control-record framing bounds -/

theorem readLineStepOnce_newline {line : List Nat} (label : String)
    (rest : List Nat) (ended : Bool) (hmem : 10 ∉ line) :
    readLineStepOnce label (line ++ 10 :: rest) ended = some (.ok line rest) := by
  unfold readLineStepOnce
  rw [findNewlineIdx_append rest hmem]
  simp [take_len_append, drop_len_succ_append]

theorem readLineStepOnce_too_large {buffer : List Nat} (label : String)
    (ended : Bool) (hmem : 10 ∉ buffer) (hlen : HEADER_MAX_BYTES < buffer.length) :
    readLineStepOnce label buffer ended = some (.fail (label ++ " too large")) := by
  unfold readLineStepOnce
  rw [findNewlineIdx_eq_none hmem]
  simp [hlen]

theorem readLineStepOnce_closed {buffer : List Nat} (label : String)
    (hmem : 10 ∉ buffer) (hlen : buffer.length ≤ HEADER_MAX_BYTES) :
    readLineStepOnce label buffer true = some (.fail ("connection closed before " ++ label)) := by
  unfold readLineStepOnce
  rw [findNewlineIdx_eq_none hmem]
  have hnotlt : ¬ HEADER_MAX_BYTES < buffer.length := by omega
  simp [hnotlt]

theorem readLineMessage_of_step {label : String} {buffer : List Nat}
    {ended : Bool} {r : ReadOutcome} (events : List ReadEvent)
    (h : readLineStepOnce label buffer ended = some r) :
    readLineMessage label buffer ended events = r := by
  cases events with
  | nil => rw [readLineMessage, h]
  | cons e rest =>
    cases e with
    | data c => rw [readLineMessage, h]
    | endOfStream => rw [readLineMessage, h]

/-- C6 (amended): framing fails the session with `<label> too large`
whenever the line buffer exceeds 65,536 bytes with no newline present;
any line whose newline is in the buffer is extracted (in particular a
header line of exactly 65,536 bytes including its newline is accepted,
not rejected); and a peer half-close before a complete line fails with
`connection closed before <label>`. -/
theorem readLineMessage_bounds (label : String) (buffer : List Nat)
    (ended : Bool) (events : List ReadEvent) :
    (10 ∉ buffer → HEADER_MAX_BYTES < buffer.length →
      readLineMessage label buffer ended events = .fail (label ++ " too large")) ∧
    (∀ line rest, 10 ∉ line →
      readLineMessage label (line ++ 10 :: rest) ended events = .ok line rest) ∧
    (10 ∉ buffer → buffer.length ≤ HEADER_MAX_BYTES → ended = true →
      readLineMessage label buffer ended events =
        .fail ("connection closed before " ++ label)) := by
  refine ⟨fun hmem hlen => ?_, fun line rest hmem => ?_, fun hmem hlen hend => ?_⟩
  · exact readLineMessage_of_step events (readLineStepOnce_too_large label ended hmem hlen)
  · exact readLineMessage_of_step events (readLineStepOnce_newline label rest ended hmem)
  · subst hend
    exact readLineMessage_of_step events (readLineStepOnce_closed label hmem hlen)

/-- Witness for C6 (amended): a buffer of 65,537 newline-free bytes is
rejected as too large; a line of 65,535 bytes plus its newline (65,536
bytes in total) is extracted; a half-closed buffer with an incomplete
line fails with the closed-connection error. -/
theorem readLineMessage_bounds_witness :
    readLineMessage "header" (List.replicate 65537 97) false [] =
      .fail ("header too large") ∧
    readLineMessage "header2" (List.replicate 65535 98 ++ 10 :: [3]) false [] =
      .ok (List.replicate 65535 98) [3] ∧
    readLineMessage "ack" [104] true [] =
      .fail ("connection closed before ack") :=
  ⟨(readLineMessage_bounds "header" (List.replicate 65537 97) false []).1
      (by simp only [List.mem_replicate]; omega)
      (by simp only [List.length_replicate, HEADER_MAX_BYTES]; norm_num),
   (readLineMessage_bounds "header2" [] false []).2.1 (List.replicate 65535 98) [3]
      (by simp only [List.mem_replicate]; omega),
   (readLineMessage_bounds "ack" [104] true []).2.2 (by simp)
      (by simp only [List.length_cons, List.length_nil, HEADER_MAX_BYTES]; norm_num) rfl⟩

/-- C6 (counterexample to the claim as stated): a header line of exactly
65,536 bytes including its newline, delivered in one chunk, is parsed
and returned, not failed with `header too large`: the size bound is
checked only when the buffer holds no newline, and the 65,535 bytes
before the newline never exceed it. -/
theorem readLineMessage_boundary_counterexample :
    readLineMessage "header" [] false [.data (List.replicate 65535 97 ++ 10 :: [])] =
      .ok (List.replicate 65535 97) [] ∧
    readLineMessage "header" [] false [.data (List.replicate 65535 97 ++ 10 :: [])] ≠
      .fail ("header too large") := by
  have hmem : (10 : Nat) ∉ List.replicate 65535 97 := by
    simp only [List.mem_replicate]
    omega
  have step0 : readLineStepOnce "header" [] false = none := rfl
  have step1 :
      readLineMessage "header" [] false [.data (List.replicate 65535 97 ++ 10 :: [])] =
        readLineMessage "header" (List.replicate 65535 97 ++ 10 :: []) false [] := by
    conv_lhs => rw [readLineMessage]
    rw [step0]
    show readLineMessage "header" ([] ++ (List.replicate 65535 97 ++ 10 :: [])) false [] =
      readLineMessage "header" (List.replicate 65535 97 ++ 10 :: []) false []
    rw [List.nil_append]
  have step2 :
      readLineMessage "header" (List.replicate 65535 97 ++ 10 :: []) false [] =
        .ok (List.replicate 65535 97) [] :=
    readLineMessage_of_step [] (readLineStepOnce_newline "header" [] false hmem)
  refine ⟨step1.trans step2, ?_⟩
  rw [step1.trans step2]
  intro h
  cases h

/-! ## Trust-on-first-use verification branches -/

/-- Branch behavior of `verifyTlsPeer` in trust-on-first-use mode: a
differing known-hosts entry for the endpoint fails with the
changed-fingerprint error; an absent entry is recorded, and the file
written back through `saveKnownHosts` is the pretty-printed object
ordered by the abstract `localeCompare` comparator with a trailing
newline; an equal entry triggers no write. -/
theorem verifyTlsPeer_tofu_cases (inp : VerifyInput) (cmp : String → String → Int)
    (hexp : optFalsy inp.expectedFingerprint = true)
    (htofu : inp.trustOnFirstUse = true) :
    (∀ known,
      lookupTruthy inp.knownHosts (buildEndpointKey inp.host inp.port) = some known →
      known ≠ inp.peerFingerprint →
      verifyTlsPeer inp = .failed ("TLS fingerprint changed for " ++
        buildEndpointKey inp.host inp.port ++ ": expected=" ++ known ++
        " actual=" ++ inp.peerFingerprint)) ∧
    (lookupTruthy inp.knownHosts (buildEndpointKey inp.host inp.port) = none →
      verifyTlsPeer inp = .trusted (some
        (setKey inp.knownHosts (buildEndpointKey inp.host inp.port) inp.peerFingerprint)) ∧
      saveKnownHosts cmp
          (setKey inp.knownHosts (buildEndpointKey inp.host inp.port) inp.peerFingerprint) =
        jsonStringifyPretty (sortByKey cmp
          (setKey inp.knownHosts (buildEndpointKey inp.host inp.port) inp.peerFingerprint))
          ++ "\n") ∧
    (∀ known,
      lookupTruthy inp.knownHosts (buildEndpointKey inp.host inp.port) = some known →
      known = inp.peerFingerprint → verifyTlsPeer inp = .trusted none) := by
  refine ⟨fun known hlook hne => ?_, fun hlook => ?_, fun known hlook heq => ?_⟩
  · unfold verifyTlsPeer tofuStage
    simp [hexp, htofu, hlook, hne]
  · refine ⟨?_, rfl⟩
    unfold verifyTlsPeer tofuStage
    simp [hexp, htofu, hlook]
  · unfold verifyTlsPeer tofuStage
    simp [hexp, htofu, hlook, heq]

/-! ## Receiver-session helper lemmas -/

theorem sessionPrelude_ok_inv {hash : List Nat → String} {cfg : ListenConfig}
    {st : PairingState} {inp : SessionInput} {header : TransferHeader}
    {normalized : String} {off : Int} {seed : List Nat}
    (h : sessionPrelude hash cfg st inp = .ok (header, normalized, off, seed)) :
    inp.headerResult = .ok header ∧
    normalizeTransferPath header.relativePath = .ok normalized ∧
    confirmOutcome cfg.confirmTransfer = none ∧
    decideResumeOffset hash inp.tempFile header.fileSize header.sha256 = .ok (off, seed) := by
  unfold sessionPrelude at h
  split at h
  · simp at h
  · rename_i header0 hh
    split at h
    · simp at h
    · split at h
      · simp at h
      · split at h
        · simp at h
        · split at h
          · simp at h
          · rename_i normalized0 hn
            split at h
            · simp at h
            · rename_i hc
              split at h
              · simp at h
              · rename_i off0 seed0 hr
                injection h with h1
                obtain ⟨hh2, hn2, ho2, hs2⟩ :
                    header0 = header ∧ normalized0 = normalized ∧ off0 = off ∧ seed0 = seed := by
                  have h2 := h1
                  simp only [Prod.mk.injEq] at h2
                  tauto
                subst hh2; subst hn2; subst ho2; subst hs2
                exact ⟨hh, hn, hc, hr⟩

theorem sessionPrelude_ok_intro {hash : List Nat → String} {cfg : ListenConfig}
    {st : PairingState} {inp : SessionInput} {header : TransferHeader}
    {normalized : String} {off : Int} {seed : List Nat}
    (hh : inp.headerResult = .ok header)
    (ht : header.type = "header")
    (hv : header.version = 1)
    (hf : ¬ header.fileSize < 0)
    (hs : header.sha256 ≠ "")
    (hp : isPairCodeAccepted st header.pairCode inp.now = true)
    (hn : normalizeTransferPath header.relativePath = .ok normalized)
    (hc : confirmOutcome cfg.confirmTransfer = none)
    (hr : decideResumeOffset hash inp.tempFile header.fileSize header.sha256 = .ok (off, seed)) :
    sessionPrelude hash cfg st inp = .ok (header, normalized, off, seed) := by
  unfold sessionPrelude
  rw [hh]
  simp [ht, hv, hf, hs, hp, hn, hc, hr]

theorem receiveBody_of_prelude_error {hash : List Nat → String} {cfg : ListenConfig}
    {st : PairingState} {inp : SessionInput} {msg : String}
    (h : sessionPrelude hash cfg st inp = .error msg) :
    receiveBody hash cfg st inp = ⟨.readyFail msg, st, [], [], false⟩ := by
  unfold receiveBody
  rw [h]

theorem receiveBody_sha_mismatch_eq {hash : List Nat → String} {cfg : ListenConfig}
    {st : PairingState} {inp : SessionInput} {header : TransferHeader}
    {normalized : String} {off : Int} {seed written : List Nat}
    (hpre : sessionPrelude hash cfg st inp = .ok (header, normalized, off, seed))
    (hpl : consumePayload header.fileSize (decide (off < header.fileSize)) off
        inp.payloadChunks = ⟨none, header.fileSize, written⟩)
    (hd : hash (seed ++ written) ≠ header.sha256) :
    receiveBody hash cfg st inp = ⟨.ackFail "sha256 mismatch", st, [], written, true⟩ := by
  unfold receiveBody
  rw [hpre]
  simp [hpl, hd]

theorem receiveBody_success_eq {hash : List Nat → String} {cfg : ListenConfig}
    {st : PairingState} {inp : SessionInput} {header : TransferHeader}
    {normalized : String} {off : Int} {seed written : List Nat}
    (hpre : sessionPrelude hash cfg st inp = .ok (header, normalized, off, seed))
    (hpl : consumePayload header.fileSize (decide (off < header.fileSize)) off
        inp.payloadChunks = ⟨none, header.fileSize, written⟩)
    (hd : hash (seed ++ written) = header.sha256) :
    receiveBody hash cfg st inp =
      successTail cfg st normalized off header.fileSize (hash (seed ++ written)) written := by
  unfold receiveBody
  rw [hpre]
  simp [hpl, hd]

theorem successTail_not_required {cfg : ListenConfig} {st : PairingState}
    (normalized : String) (off received : Int) (digest : String) (written : List Nat)
    (h : optFalsy st.currentCode = true) :
    successTail cfg st normalized off received digest written =
      ⟨.ackOk ⟨true, none, some digest, some received,
          some (cfg.outputDir ++ "/" ++ normalized), some off, none⟩,
        st, [], written, false⟩ := by
  unfold successTail
  cases hg : cfg.generatePairCode <;> simp [h]

theorem successTail_required_no_rotate {cfg : ListenConfig} {st : PairingState}
    (normalized : String) (off received : Int) (digest : String) (written : List Nat)
    (h : optFalsy st.currentCode = false)
    (hno : cfg.rotatePairCodePerTransfer = false ∨ cfg.generatePairCode = none) :
    successTail cfg st normalized off received digest written =
      ⟨.ackOk ⟨true, none, some digest, some received,
          some (cfg.outputDir ++ "/" ++ normalized), some off, st.currentCode⟩,
        st, [], written, false⟩ := by
  unfold successTail
  rcases hno with hno | hno
  · cases hg : cfg.generatePairCode <;> simp [h, hno]
  · simp [hno, h]

theorem successTail_rotate {cfg : ListenConfig} {st : PairingState} {g : Nat → String}
    (normalized : String) (off received : Int) (digest : String) (written : List Nat)
    (h : optFalsy st.currentCode = false)
    (hrot : cfg.rotatePairCodePerTransfer = true)
    (hg : cfg.generatePairCode = some g) :
    successTail cfg st normalized off received digest written =
      ⟨.ackOk ⟨true, none, some digest, some received,
          some (cfg.outputDir ++ "/" ++ normalized), some off,
          some (genRetry g st.currentCode 0 5)⟩,
        { st with currentCode := some (genRetry g st.currentCode 0 5),
                  previousCode := none, previousCodeValidUntilMs := 0 },
        [.rotateOnce (genRetry g st.currentCode 0 5)], written, false⟩ := by
  unfold successTail
  simp [h, hrot, hg, rotatePairCodeOnce]

theorem successTail_fields (cfg : ListenConfig) (st : PairingState)
    (normalized : String) (off received : Int) (digest : String) (written : List Nat) :
    ∃ ack, (successTail cfg st normalized off received digest written).result = .ackOk ack ∧
      ack.ok = true ∧ ack.sha256 = some digest ∧
      (successTail cfg st normalized off received digest written).writtenBytes = written ∧
      (successTail cfg st normalized off received digest written).tempDeleted = false := by
  unfold successTail
  cases hg : cfg.generatePairCode with
  | none =>
    by_cases h : optFalsy st.currentCode = false <;> simp [h]
  | some g =>
    by_cases h : optFalsy st.currentCode = false
    · by_cases hrot : cfg.rotatePairCodePerTransfer = true <;> simp [h, hrot]
    · simp [h]

theorem successTail_shape (cfg : ListenConfig) (st : PairingState)
    (normalized : String) (off received : Int) (digest : String) (written : List Nat) :
    ((successTail cfg st normalized off received digest written).ops = [] ∧
      (successTail cfg st normalized off received digest written).pairing = st) ∨
    (∃ c, (successTail cfg st normalized off received digest written).ops = [.rotateOnce c] ∧
      (successTail cfg st normalized off received digest written).pairing =
        applyPairingOp (.rotateOnce c) st) := by
  unfold successTail
  cases hg : cfg.generatePairCode with
  | none =>
    by_cases h : optFalsy st.currentCode = false <;> simp [h]
  | some g =>
    by_cases h : optFalsy st.currentCode = false
    · by_cases hrot : cfg.rotatePairCodePerTransfer = true
      · right
        exact ⟨genRetry g st.currentCode 0 5, by simp [h, hrot, rotatePairCodeOnce, applyPairingOp]⟩
      · left; simp [h, hrot]
    · left; simp [h]

theorem receiveBody_shape (hash : List Nat → String) (cfg : ListenConfig)
    (st : PairingState) (inp : SessionInput) :
    ((receiveBody hash cfg st inp).ops = [] ∧ (receiveBody hash cfg st inp).pairing = st) ∨
    (∃ c, (receiveBody hash cfg st inp).ops = [.rotateOnce c] ∧
      (receiveBody hash cfg st inp).pairing = applyPairingOp (.rotateOnce c) st ∧
      ∃ ack, (receiveBody hash cfg st inp).result = .ackOk ack) := by
  unfold receiveBody
  cases hpre : sessionPrelude hash cfg st inp with
  | error msg => left; exact ⟨rfl, rfl⟩
  | ok t =>
    obtain ⟨header, normalized, off, seed⟩ := t
    simp only []
    cases hoe : (consumePayload header.fileSize (decide (off < header.fileSize)) off
        inp.payloadChunks).err with
    | some msg => left; simp [hoe]
    | none =>
      by_cases hrecv : (consumePayload header.fileSize (decide (off < header.fileSize)) off
          inp.payloadChunks).received = header.fileSize
      · by_cases hd : hash (seed ++ (consumePayload header.fileSize
            (decide (off < header.fileSize)) off inp.payloadChunks).written) = header.sha256
        · have hshape := successTail_shape cfg st normalized off header.fileSize
            header.sha256
            ((consumePayload header.fileSize (decide (off < header.fileSize)) off
              inp.payloadChunks).written)
          have hfields := successTail_fields cfg st normalized off header.fileSize
            header.sha256
            ((consumePayload header.fileSize (decide (off < header.fileSize)) off
              inp.payloadChunks).written)
          obtain ⟨ack, hres, -, -, -, -⟩ := hfields
          rcases hshape with ⟨h1, h2⟩ | ⟨c, h1, h2⟩
          · left
            constructor
            · simp [hoe, hrecv, hd, h1]
            · simp [hoe, hrecv, hd, h2]
          · right
            refine ⟨c, ?_, ?_, ack, ?_⟩
            · simp [hoe, hrecv, hd, h1]
            · simp [hoe, hrecv, hd, h2]
            · simp [hoe, hrecv, hd, hres]
        · left; simp [hoe, hrecv, hd]
      · left; simp [hoe, hrecv]

theorem receiveBody_ackOk_inv {hash : List Nat → String} {cfg : ListenConfig}
    {st : PairingState} {inp : SessionInput} {ack : AckMessage}
    (h : (receiveBody hash cfg st inp).result = .ackOk ack) :
    ∃ header normalized off seed written,
      sessionPrelude hash cfg st inp = .ok (header, normalized, off, seed) ∧
      consumePayload header.fileSize (decide (off < header.fileSize)) off
        inp.payloadChunks = ⟨none, header.fileSize, written⟩ ∧
      hash (seed ++ written) = header.sha256 ∧
      receiveBody hash cfg st inp =
        successTail cfg st normalized off header.fileSize header.sha256 written ∧
      ack.ok = true ∧ ack.sha256 = some header.sha256 ∧
      (receiveBody hash cfg st inp).writtenBytes = written := by
  cases hpre : sessionPrelude hash cfg st inp with
  | error msg =>
    rw [receiveBody_of_prelude_error hpre] at h
    simp at h
  | ok t =>
    obtain ⟨header, normalized, off, seed⟩ := t
    rcases hout : consumePayload header.fileSize (decide (off < header.fileSize)) off
      inp.payloadChunks with ⟨e, r, w⟩
    unfold receiveBody at h
    rw [hpre] at h
    simp only [hout] at h
    cases e with
    | some msg => simp at h
    | none =>
      by_cases hrecv : r = header.fileSize
      · subst hrecv
        by_cases hd : hash (seed ++ w) = header.sha256
        · simp only [bne_self_eq_false, Bool.false_eq_true, if_false, hd] at h
          have hbody : receiveBody hash cfg st inp =
              successTail cfg st normalized off header.fileSize header.sha256 w := by
            unfold receiveBody
            rw [hpre]
            simp [hout, hd]
          obtain ⟨ack0, hres, hok, hsha, hwr, -⟩ := successTail_fields cfg st normalized off
            header.fileSize header.sha256 w
          rw [hres] at h
          injection h with h
          subst h
          exact ⟨header, normalized, off, seed, w, rfl, hout, hd, hbody, hok, hsha,
            by rw [hbody, hwr]⟩
        · simp [hd] at h
      · simp [hrecv] at h

theorem successTail_nextPairCode {cfg : ListenConfig} {st : PairingState}
    {normalized : String} {off received : Int} {digest : String} {written : List Nat}
    {ack : AckMessage}
    (h : (successTail cfg st normalized off received digest written).result = .ackOk ack)
    (hnone : ack.nextPairCode = none) : optFalsy st.currentCode = true := by
  by_cases hreq : optFalsy st.currentCode = true
  · exact hreq
  · exfalso
    have hreq2 : optFalsy st.currentCode = false := by
      cases hof : optFalsy st.currentCode
      · rfl
      · exact absurd hof hreq
    obtain ⟨c, hc⟩ : ∃ c, st.currentCode = some c := by
      cases hcc : st.currentCode with
      | none => rw [hcc] at hreq2; simp [optFalsy] at hreq2
      | some c => exact ⟨c, rfl⟩
    unfold successTail at h
    cases hg : cfg.generatePairCode with
    | none =>
      rw [hg] at h
      simp only [hreq2, Bool.not_false, if_true] at h
      injection h with h
      rw [← h] at hnone
      simp [hc] at hnone
    | some g =>
      rw [hg] at h
      by_cases hrot : cfg.rotatePairCodePerTransfer
      · simp only [hreq2, hrot, Bool.not_false, Bool.and_true, if_true] at h
        injection h with h
        rw [← h] at hnone
        simp at hnone
      · simp only [hreq2, hrot, Bool.not_false, Bool.and_false, if_false,
          Bool.false_eq_true, if_true] at h
        injection h with h
        rw [← h] at hnone
        simp [hc] at hnone

theorem genRetry_ne (g : Nat → String) (old : String) :
    ∀ fuel start, (∃ i, start ≤ i ∧ i ≤ start + fuel ∧ g i ≠ old) →
      genRetry g (some old) start fuel ≠ old := by
  intro fuel
  induction fuel with
  | zero =>
    rintro start ⟨i, h1, h2, h3⟩
    have hi : i = start := by omega
    subst hi
    simpa [genRetry] using h3
  | succ fuel ih =>
    rintro start ⟨i, h1, h2, h3⟩
    by_cases hs : g start = old
    · have hi : i ≠ start := fun hcon => h3 (hcon ▸ hs)
      have hrec := ih (start + 1) ⟨i, by omega, by omega, h3⟩
      simpa [genRetry, hs] using hrec
    · simp [genRetry, hs]

/-! ## Claim C1: receiver integrity -/

/-- C1: the receiver emits `ack{ok:true}` only when the digest computed
over the received file (the resume-seeded hasher over seed plus written
payload, which is the final temp-file content) equals `header.sha256`,
and the ack echoes that digest; conversely, every session that reaches
the digest comparison (all before-`ready` stages passed and the payload
completed the declared size) with a differing digest deletes the temp
file and emits `ack{ok:false}` with message `sha256 mismatch`. -/
theorem receiver_integrity (hash : List Nat → String) (cfg : ListenConfig)
    (st0 : PairingState) (inp : SessionInput) :
    (∀ ack, (receiveSession hash cfg st0 inp).result = .ackOk ack →
      ∃ header off seed,
        inp.headerResult = .ok header ∧
        decideResumeOffset hash inp.tempFile header.fileSize header.sha256 =
          .ok (off, seed) ∧
        hash (seed ++ (receiveSession hash cfg st0 inp).writtenBytes) = header.sha256 ∧
        ack.ok = true ∧ ack.sha256 = some header.sha256) ∧
    (∀ header normalized off seed written,
      sessionPrelude hash cfg (applyPairingOp .incrActive st0) inp =
        .ok (header, normalized, off, seed) →
      consumePayload header.fileSize (decide (off < header.fileSize)) off
        inp.payloadChunks = ⟨none, header.fileSize, written⟩ →
      hash (seed ++ written) ≠ header.sha256 →
      (receiveSession hash cfg st0 inp).result = .ackFail "sha256 mismatch" ∧
      (receiveSession hash cfg st0 inp).tempDeleted = true) := by
  constructor
  · intro ack h
    have h2 : (receiveBody hash cfg (applyPairingOp .incrActive st0) inp).result =
        .ackOk ack := h
    obtain ⟨header, normalized, off, seed, written, hpre, hout, hd, hbody, hok, hsha, hwr⟩ :=
      receiveBody_ackOk_inv h2
    obtain ⟨hh, hn, hc, hr⟩ := sessionPrelude_ok_inv hpre
    refine ⟨header, off, seed, hh, hr, ?_, hok, hsha⟩
    have hwb : (receiveSession hash cfg st0 inp).writtenBytes =
        (receiveBody hash cfg (applyPairingOp .incrActive st0) inp).writtenBytes := rfl
    rw [hwb, hwr]
    exact hd
  · intro header normalized off seed written hpre hpl hd
    have hbody := receiveBody_sha_mismatch_eq hpre hpl hd
    constructor
    · show (receiveBody hash cfg (applyPairingOp .incrActive st0) inp).result = _
      rw [hbody]
    · show (receiveBody hash cfg (applyPairingOp .incrActive st0) inp).tempDeleted = _
      rw [hbody]

/-- Witness for C1: a concrete one-chunk session whose computed digest
differs from the header digest fails with `sha256 mismatch` and deletes
the temp file. -/
theorem receiver_integrity_witness :
    (receiveSession (fun _ => "xx") ⟨"/out", false, none, none⟩ ⟨none, none, 0, 0⟩
        ⟨.ok ⟨"header", 1, "f.txt", 1, "ZZ", none⟩, none, [[7]], 0⟩).result =
      .ackFail "sha256 mismatch" ∧
    (receiveSession (fun _ => "xx") ⟨"/out", false, none, none⟩ ⟨none, none, 0, 0⟩
        ⟨.ok ⟨"header", 1, "f.txt", 1, "ZZ", none⟩, none, [[7]], 0⟩).tempDeleted = true :=
  (receiver_integrity (fun _ => "xx") ⟨"/out", false, none, none⟩ ⟨none, none, 0, 0⟩
      ⟨.ok ⟨"header", 1, "f.txt", 1, "ZZ", none⟩, none, [[7]], 0⟩).2
    ⟨"header", 1, "f.txt", 1, "ZZ", none⟩ "f.txt" 0 [] [7] rfl rfl (by decide)

/-! ## Claim C8: per-transfer rotation -/

/-- C8: per-transfer rotation happens only after a fully successful
transfer (any session that does not emit `ack{ok:true}` leaves all
pairing codes unchanged); on a successful transfer with a required pair
code, rotation configured and a generator injected, the generated code
is written into the ack as `next_pair_code`, becomes the current code,
and `previous_code` is reset to null with its validity timestamp 0; the
generator is retried up to 5 times to obtain a value distinct from the
old code. -/
theorem perTransfer_rotation_spec (hash : List Nat → String) (cfg : ListenConfig)
    (st0 : PairingState) (inp : SessionInput) :
    ((∀ ack, (receiveSession hash cfg st0 inp).result ≠ .ackOk ack) →
      (receiveSession hash cfg st0 inp).pairing.currentCode = st0.currentCode ∧
      (receiveSession hash cfg st0 inp).pairing.previousCode = st0.previousCode ∧
      (receiveSession hash cfg st0 inp).pairing.previousCodeValidUntilMs =
        st0.previousCodeValidUntilMs) ∧
    (∀ header normalized off seed written g,
      sessionPrelude hash cfg (applyPairingOp .incrActive st0) inp =
        .ok (header, normalized, off, seed) →
      consumePayload header.fileSize (decide (off < header.fileSize)) off
        inp.payloadChunks = ⟨none, header.fileSize, written⟩ →
      hash (seed ++ written) = header.sha256 →
      optFalsy st0.currentCode = false →
      cfg.rotatePairCodePerTransfer = true →
      cfg.generatePairCode = some g →
      ∃ ack, (receiveSession hash cfg st0 inp).result = .ackOk ack ∧
        ack.nextPairCode = some (genRetry g st0.currentCode 0 5) ∧
        (receiveSession hash cfg st0 inp).pairing.currentCode =
          some (genRetry g st0.currentCode 0 5) ∧
        (receiveSession hash cfg st0 inp).pairing.previousCode = none ∧
        (receiveSession hash cfg st0 inp).pairing.previousCodeValidUntilMs = 0) ∧
    (∀ g old, (∃ i, i ≤ 5 ∧ g i ≠ old) → genRetry g (some old) 0 5 ≠ old) := by
  refine ⟨?_, ?_, ?_⟩
  · intro h
    rcases receiveBody_shape hash cfg (applyPairingOp .incrActive st0) inp with
      ⟨hops, hpair⟩ | ⟨c, hops, hpair, ack, hres⟩
    · have hp : (receiveSession hash cfg st0 inp).pairing =
          applyPairingOp .decrActive
            (receiveBody hash cfg (applyPairingOp .incrActive st0) inp).pairing := rfl
      rw [hp, hpair]
      exact ⟨rfl, rfl, rfl⟩
    · exact absurd hres (h ack)
  · intro header normalized off seed written g hpre hpl hd hreq hrot hg
    have hbody := receiveBody_success_eq hpre hpl hd
    have hreq2 : optFalsy (applyPairingOp .incrActive st0).currentCode = false := hreq
    have htail := @successTail_rotate cfg (applyPairingOp .incrActive st0) g
      normalized off header.fileSize (hash (seed ++ written)) written hreq2 hrot hg
    rw [htail] at hbody
    refine ⟨⟨true, none, some (hash (seed ++ written)), some header.fileSize,
        some (cfg.outputDir ++ "/" ++ normalized), some off,
        some (genRetry g st0.currentCode 0 5)⟩, ?_, rfl, ?_, ?_, ?_⟩
    · show (receiveBody hash cfg (applyPairingOp .incrActive st0) inp).result = _
      rw [hbody]
      rfl
    · show (applyPairingOp .decrActive
          (receiveBody hash cfg (applyPairingOp .incrActive st0) inp).pairing).currentCode = _
      rw [hbody]
      rfl
    · show (applyPairingOp .decrActive
          (receiveBody hash cfg (applyPairingOp .incrActive st0) inp).pairing).previousCode = _
      rw [hbody]
      rfl
    · show (applyPairingOp .decrActive
          (receiveBody hash cfg (applyPairingOp .incrActive st0) inp).pairing).previousCodeValidUntilMs = _
      rw [hbody]
      rfl
  · rintro g old ⟨i, h1, h2⟩
    exact genRetry_ne g old 5 0 ⟨i, by omega, by omega, h2⟩

/-- Witness for C8: a concrete rotating session installs the generated
code, writes it into the ack and clears the grace window; the retry loop
yields a distinct code. -/
theorem perTransfer_rotation_spec_witness :
    (∃ ack, (receiveSession (fun _ => "cafe") ⟨"/out", true, some (fun _ => "654321"), none⟩
          ⟨some "123456", none, 0, 0⟩
          ⟨.ok ⟨"header", 1, "f.txt", 1, "cafe", some "123456"⟩, none, [[5]], 0⟩).result =
        .ackOk ack ∧
      ack.nextPairCode = some (genRetry (fun _ => "654321") (some "123456") 0 5) ∧
      (receiveSession (fun _ => "cafe") ⟨"/out", true, some (fun _ => "654321"), none⟩
          ⟨some "123456", none, 0, 0⟩
          ⟨.ok ⟨"header", 1, "f.txt", 1, "cafe", some "123456"⟩, none, [[5]], 0⟩).pairing.currentCode =
        some (genRetry (fun _ => "654321") (some "123456") 0 5) ∧
      (receiveSession (fun _ => "cafe") ⟨"/out", true, some (fun _ => "654321"), none⟩
          ⟨some "123456", none, 0, 0⟩
          ⟨.ok ⟨"header", 1, "f.txt", 1, "cafe", some "123456"⟩, none, [[5]], 0⟩).pairing.previousCode =
        none ∧
      (receiveSession (fun _ => "cafe") ⟨"/out", true, some (fun _ => "654321"), none⟩
          ⟨some "123456", none, 0, 0⟩
          ⟨.ok ⟨"header", 1, "f.txt", 1, "cafe", some "123456"⟩, none, [[5]], 0⟩).pairing.previousCodeValidUntilMs =
        0) ∧
    genRetry (fun _ => "654321") (some "123456") 0 5 ≠ "123456" :=
  ⟨(perTransfer_rotation_spec (fun _ => "cafe") ⟨"/out", true, some (fun _ => "654321"), none⟩
      ⟨some "123456", none, 0, 0⟩
      ⟨.ok ⟨"header", 1, "f.txt", 1, "cafe", some "123456"⟩, none, [[5]], 0⟩).2.1
    ⟨"header", 1, "f.txt", 1, "cafe", some "123456"⟩ "f.txt" 0 [] [5] (fun _ => "654321")
    rfl rfl rfl rfl rfl rfl,
   (perTransfer_rotation_spec (fun _ => "cafe") ⟨"/out", true, some (fun _ => "654321"), none⟩
      ⟨some "123456", none, 0, 0⟩
      ⟨.ok ⟨"header", 1, "f.txt", 1, "cafe", some "123456"⟩, none, [[5]], 0⟩).2.2
    (fun _ => "654321") "123456" ⟨0, by decide, by decide⟩⟩

/-! ## Claim C10: next_pair_code without per-transfer rotation -/

/-- C10: when a pair code was required at admission (the snapshot
`requiredPairCodeForThisTransfer` is truthy) but per-transfer rotation
is not configured, a successful ack still carries `next_pair_code` equal
to the receiver's current, unchanged pair code; and `next_pair_code` is
absent from a successful ack only when no pair code was required. -/
theorem ack_nextPairCode_spec (hash : List Nat → String) (cfg : ListenConfig)
    (st0 : PairingState) (inp : SessionInput) :
    (∀ header normalized off seed written,
      sessionPrelude hash cfg (applyPairingOp .incrActive st0) inp =
        .ok (header, normalized, off, seed) →
      consumePayload header.fileSize (decide (off < header.fileSize)) off
        inp.payloadChunks = ⟨none, header.fileSize, written⟩ →
      hash (seed ++ written) = header.sha256 →
      optFalsy st0.currentCode = false →
      (cfg.rotatePairCodePerTransfer = false ∨ cfg.generatePairCode = none) →
      ∃ ack, (receiveSession hash cfg st0 inp).result = .ackOk ack ∧
        ack.nextPairCode = st0.currentCode ∧
        (receiveSession hash cfg st0 inp).pairing.currentCode = st0.currentCode) ∧
    (∀ ack, (receiveSession hash cfg st0 inp).result = .ackOk ack →
      ack.nextPairCode = none → optFalsy st0.currentCode = true) ∧
    (∀ header normalized off seed written,
      sessionPrelude hash cfg (applyPairingOp .incrActive st0) inp =
        .ok (header, normalized, off, seed) →
      consumePayload header.fileSize (decide (off < header.fileSize)) off
        inp.payloadChunks = ⟨none, header.fileSize, written⟩ →
      hash (seed ++ written) = header.sha256 →
      optFalsy st0.currentCode = true →
      ∃ ack, (receiveSession hash cfg st0 inp).result = .ackOk ack ∧
        ack.nextPairCode = none) := by
  refine ⟨?_, ?_, ?_⟩
  · intro header normalized off seed written hpre hpl hd hreq hno
    have hbody := receiveBody_success_eq hpre hpl hd
    have hreq2 : optFalsy (applyPairingOp .incrActive st0).currentCode = false := hreq
    have htail := @successTail_required_no_rotate cfg (applyPairingOp .incrActive st0)
      normalized off header.fileSize (hash (seed ++ written)) written hreq2 hno
    rw [htail] at hbody
    refine ⟨⟨true, none, some (hash (seed ++ written)), some header.fileSize,
        some (cfg.outputDir ++ "/" ++ normalized), some off, st0.currentCode⟩, ?_, rfl, ?_⟩
    · show (receiveBody hash cfg (applyPairingOp .incrActive st0) inp).result = _
      rw [hbody]
      rfl
    · show (applyPairingOp .decrActive
          (receiveBody hash cfg (applyPairingOp .incrActive st0) inp).pairing).currentCode = _
      rw [hbody]
      rfl
  · intro ack h hnone
    have h2 : (receiveBody hash cfg (applyPairingOp .incrActive st0) inp).result =
        .ackOk ack := h
    obtain ⟨header, normalized, off, seed, written, hpre, hout, hd, hbody, -, -, -⟩ :=
      receiveBody_ackOk_inv h2
    have h3 : (successTail cfg (applyPairingOp .incrActive st0) normalized off
        header.fileSize header.sha256 written).result = .ackOk ack := by
      rw [← hbody]
      exact h2
    exact @successTail_nextPairCode cfg (applyPairingOp .incrActive st0) normalized off
      header.fileSize header.sha256 written ack h3 hnone
  · intro header normalized off seed written hpre hpl hd hreq
    have hbody := receiveBody_success_eq hpre hpl hd
    have hreq2 : optFalsy (applyPairingOp .incrActive st0).currentCode = true := hreq
    have htail := @successTail_not_required cfg (applyPairingOp .incrActive st0)
      normalized off header.fileSize (hash (seed ++ written)) written hreq2
    rw [htail] at hbody
    refine ⟨⟨true, none, some (hash (seed ++ written)), some header.fileSize,
        some (cfg.outputDir ++ "/" ++ normalized), some off, none⟩, ?_, rfl⟩
    show (receiveBody hash cfg (applyPairingOp .incrActive st0) inp).result = _
    rw [hbody]

/-- Witness for C10: with a fixed pair code and no rotation configured,
the successful ack carries the unchanged current code; with no pair code
configured, the ack carries none. -/
theorem ack_nextPairCode_spec_witness :
    (∃ ack, (receiveSession (fun _ => "cafe") ⟨"/out", false, none, none⟩
          ⟨some "123456", none, 0, 0⟩
          ⟨.ok ⟨"header", 1, "f.txt", 1, "cafe", some "123456"⟩, none, [[5]], 0⟩).result =
        .ackOk ack ∧
      ack.nextPairCode = some "123456" ∧
      (receiveSession (fun _ => "cafe") ⟨"/out", false, none, none⟩
          ⟨some "123456", none, 0, 0⟩
          ⟨.ok ⟨"header", 1, "f.txt", 1, "cafe", some "123456"⟩, none, [[5]], 0⟩).pairing.currentCode =
        some "123456") ∧
    (∃ ack, (receiveSession (fun _ => "cafe") ⟨"/out", false, none, none⟩
          ⟨none, none, 0, 0⟩
          ⟨.ok ⟨"header", 1, "f.txt", 1, "cafe", none⟩, none, [[5]], 0⟩).result =
        .ackOk ack ∧
      ack.nextPairCode = none) :=
  ⟨(ack_nextPairCode_spec (fun _ => "cafe") ⟨"/out", false, none, none⟩
      ⟨some "123456", none, 0, 0⟩
      ⟨.ok ⟨"header", 1, "f.txt", 1, "cafe", some "123456"⟩, none, [[5]], 0⟩).1
    ⟨"header", 1, "f.txt", 1, "cafe", some "123456"⟩ "f.txt" 0 [] [5]
    rfl rfl rfl rfl (Or.inl rfl),
   (ack_nextPairCode_spec (fun _ => "cafe") ⟨"/out", false, none, none⟩
      ⟨none, none, 0, 0⟩
      ⟨.ok ⟨"header", 1, "f.txt", 1, "cafe", none⟩, none, [[5]], 0⟩).2.2
    ⟨"header", 1, "f.txt", 1, "cafe", none⟩ "f.txt" 0 [] [5] rfl rfl rfl rfl⟩

/-! ## Claim C9: active-transfers counter -/

/-- C9: every inbound session increments `active_transfers` first (its
pairing-state trace begins with the increment, before any
header-dependent step, for every input including malformed headers) and
ends with the clamped decrement of the guaranteed-cleanup block; the
final pairing state is the trace applied to the initial one; starting
from a non-negative counter it stays non-negative at every point, is
strictly positive at every point while the session is open, and a TTL
tick at any such point leaves the pairing state unchanged. -/
theorem activeTransfers_guard (hash : List Nat → String) (cfg : ListenConfig)
    (st0 : PairingState) (inp : SessionInput) (h0 : 0 ≤ st0.activeTransfers) :
    (receiveSession hash cfg st0 inp).trace.head? = some PairingOp.incrActive ∧
    (receiveSession hash cfg st0 inp).trace.getLast? = some PairingOp.decrActive ∧
    (receiveSession hash cfg st0 inp).pairing =
      applyPairingOps (receiveSession hash cfg st0 inp).trace st0 ∧
    (∀ n, 0 ≤ (applyPairingOps ((receiveSession hash cfg st0 inp).trace.take n)
        st0).activeTransfers) ∧
    (∀ n, 0 < n → n < (receiveSession hash cfg st0 inp).trace.length →
      0 < (applyPairingOps ((receiveSession hash cfg st0 inp).trace.take n)
        st0).activeTransfers) ∧
    (∀ n gen ttlMs now, 0 < n → n < (receiveSession hash cfg st0 inp).trace.length →
      ttlTick (applyPairingOps ((receiveSession hash cfg st0 inp).trace.take n) st0)
          gen ttlMs now =
        applyPairingOps ((receiveSession hash cfg st0 inp).trace.take n) st0) := by
  have htrace : (receiveSession hash cfg st0 inp).trace =
      PairingOp.incrActive ::
        ((receiveBody hash cfg (applyPairingOp .incrActive st0) inp).ops ++
          [PairingOp.decrActive]) := rfl
  have hpairing : (receiveSession hash cfg st0 inp).pairing =
      applyPairingOp .decrActive
        (receiveBody hash cfg (applyPairingOp .incrActive st0) inp).pairing := rfl
  rcases receiveBody_shape hash cfg (applyPairingOp .incrActive st0) inp with
    ⟨hops, hpair⟩ | ⟨c, hops, hpair, -⟩
  · refine ⟨?_, ?_, ?_, ?_, ?_, ?_⟩
    · rw [htrace, hops]; rfl
    · rw [htrace, hops]; rfl
    · rw [htrace, hops, hpairing, hpair]; rfl
    · intro n
      rw [htrace, hops]
      match n with
      | 0 => simpa using h0
      | 1 => simp [applyPairingOps, applyPairingOp]; omega
      | (n + 2) =>
        simp [applyPairingOps, applyPairingOp]
    · intro n hn1 hn2
      rw [htrace, hops] at hn2 ⊢
      simp at hn2
      have : n = 1 := by omega
      subst this
      simp [applyPairingOps, applyPairingOp]
      omega
    · intro n gen ttlMs now hn1 hn2
      rw [htrace, hops] at hn2 ⊢
      simp at hn2
      have : n = 1 := by omega
      subst this
      refine ttlTick_skip _ gen ttlMs now ?_
      simp [applyPairingOps, applyPairingOp]
      omega
  · refine ⟨?_, ?_, ?_, ?_, ?_, ?_⟩
    · rw [htrace, hops]; rfl
    · rw [htrace, hops]; rfl
    · rw [htrace, hops, hpairing, hpair]; rfl
    · intro n
      rw [htrace, hops]
      match n with
      | 0 => simpa using h0
      | 1 => simp [applyPairingOps, applyPairingOp]; omega
      | 2 => simp [applyPairingOps, applyPairingOp]; omega
      | (n + 3) =>
        simp [applyPairingOps, applyPairingOp]
    · intro n hn1 hn2
      rw [htrace, hops] at hn2 ⊢
      simp at hn2
      match n, hn1, hn2 with
      | 1, _, _ => simp [applyPairingOps, applyPairingOp]; omega
      | 2, _, _ => simp [applyPairingOps, applyPairingOp]; omega
    · intro n gen ttlMs now hn1 hn2
      rw [htrace, hops] at hn2 ⊢
      simp at hn2
      match n, hn1, hn2 with
      | 1, _, _ =>
        refine ttlTick_skip _ gen ttlMs now ?_
        simp [applyPairingOps, applyPairingOp]
        omega
      | 2, _, _ =>
        refine ttlTick_skip _ gen ttlMs now ?_
        simp [applyPairingOps, applyPairingOp]
        omega

/-- Witness for C9: a session whose header read failed (peer half-close)
still has the increment first and the clamped decrement last. -/
theorem activeTransfers_guard_witness :
    (receiveSession (fun _ => "hh") ⟨"/out", false, none, none⟩ ⟨none, none, 0, 0⟩
        ⟨.error "connection closed before header", none, [], 0⟩).trace.head? =
      some PairingOp.incrActive ∧
    (receiveSession (fun _ => "hh") ⟨"/out", false, none, none⟩ ⟨none, none, 0, 0⟩
        ⟨.error "connection closed before header", none, [], 0⟩).trace.getLast? =
      some PairingOp.decrActive ∧
    (receiveSession (fun _ => "hh") ⟨"/out", false, none, none⟩ ⟨none, none, 0, 0⟩
        ⟨.error "connection closed before header", none, [], 0⟩).pairing =
      applyPairingOps
        (receiveSession (fun _ => "hh") ⟨"/out", false, none, none⟩ ⟨none, none, 0, 0⟩
          ⟨.error "connection closed before header", none, [], 0⟩).trace
        ⟨none, none, 0, 0⟩ :=
  ⟨(activeTransfers_guard (fun _ => "hh") ⟨"/out", false, none, none⟩ ⟨none, none, 0, 0⟩
      ⟨.error "connection closed before header", none, [], 0⟩ (by decide)).1,
   (activeTransfers_guard (fun _ => "hh") ⟨"/out", false, none, none⟩ ⟨none, none, 0, 0⟩
      ⟨.error "connection closed before header", none, [], 0⟩ (by decide)).2.1,
   (activeTransfers_guard (fun _ => "hh") ⟨"/out", false, none, none⟩ ⟨none, none, 0, 0⟩
      ⟨.error "connection closed before header", none, [], 0⟩ (by decide)).2.2.1⟩

/-! ## Claim C2: path safety -/

/-- C2 (counterexample to the claim as stated): the relative path
`a/../b` contains a `..` segment, yet normalization resolves the segment
(Node `path.posix.normalize`) and accepts the path as `b`, and a
receiver session for it completes successfully and writes payload bytes
— the receiver does not reject it. -/
theorem pathSafety_claim_counterexample :
    strIncludes "a/../b" "/../" = true ∧
    normalizeTransferPath "a/../b" = .ok "b" ∧
    (receiveSession (fun _ => "cafe") ⟨"/out", false, none, none⟩ ⟨none, none, 0, 0⟩
        ⟨.ok ⟨"header", 1, "a/../b", 1, "cafe", none⟩, none, [[5]], 0⟩).result =
      .ackOk ⟨true, none, some "cafe", some 1, some "/out/b", some 0, none⟩ ∧
    (receiveSession (fun _ => "cafe") ⟨"/out", false, none, none⟩ ⟨none, none, 0, 0⟩
        ⟨.ok ⟨"header", 1, "a/../b", 1, "cafe", none⟩, none, [[5]], 0⟩).writtenBytes =
      [5] :=
  ⟨rfl, rfl, rfl, rfl⟩

/-- C2 (amended): the normalization step rejects exactly the inputs
whose processed form — backslashes replaced, trimmed, POSIX-normalized
(which resolves `.` and `..` segments and collapses repeated slashes),
leading slashes stripped — is empty, `.`, `..`, starts with `../`, or
contains `/../`; accepted inputs yield exactly that processed form; and
for every header whose relative path is rejected, a session that passed
the earlier stages emits `ready{ok:false, message:"invalid relative
path"}` before any payload byte is written and without touching any
temp file. -/
theorem pathSafety_amended (input : String) :
    (normalizeTransferPath input = .error "invalid relative path" ↔
      rejectedNormalizedForm (processedTransferPath input) = true) ∧
    (∀ r, normalizeTransferPath input = .ok r → r = processedTransferPath input) ∧
    (∀ (hash : List Nat → String) (cfg : ListenConfig) (st0 : PairingState)
        (inp : SessionInput) (header : TransferHeader),
      inp.headerResult = .ok header →
      header.relativePath = input →
      header.type = "header" → header.version = 1 → ¬ header.fileSize < 0 →
      header.sha256 ≠ "" →
      isPairCodeAccepted st0 header.pairCode inp.now = true →
      rejectedNormalizedForm (processedTransferPath input) = true →
      (receiveSession hash cfg st0 inp).result = .readyFail "invalid relative path" ∧
      (receiveSession hash cfg st0 inp).writtenBytes = [] ∧
      (receiveSession hash cfg st0 inp).tempDeleted = false) := by
  refine ⟨?_, ?_, ?_⟩
  · unfold normalizeTransferPath
    by_cases hrej : rejectedNormalizedForm (processedTransferPath input) = true
    · simp [hrej]
    · simp [hrej]
  · intro r hok
    unfold normalizeTransferPath at hok
    by_cases hrej : rejectedNormalizedForm (processedTransferPath input) = true
    · simp [hrej] at hok
    · simp [hrej] at hok
      exact hok.symm
  · intro hash cfg st0 inp header hh hrel ht hv hf hs hp hreject
    have hp2 : isPairCodeAccepted (applyPairingOp .incrActive st0) header.pairCode
        inp.now = true := hp
    have hnorm : normalizeTransferPath header.relativePath =
        .error "invalid relative path" := by
      rw [hrel]
      unfold normalizeTransferPath
      simp [hreject]
    have hpre : sessionPrelude hash cfg (applyPairingOp .incrActive st0) inp =
        .error "invalid relative path" := by
      unfold sessionPrelude
      rw [hh]
      simp [ht, hv, hf, hs, hp2, hnorm]
    have hbody := receiveBody_of_prelude_error hpre
    refine ⟨?_, ?_, ?_⟩
    · show (receiveBody hash cfg (applyPairingOp .incrActive st0) inp).result = _
      rw [hbody]
    · show (receiveBody hash cfg (applyPairingOp .incrActive st0) inp).writtenBytes = _
      rw [hbody]
    · show (receiveBody hash cfg (applyPairingOp .incrActive st0) inp).tempDeleted = _
      rw [hbody]

/-- Witness for C2 (amended): the traversal path `../x` is rejected by
normalization, and a concrete session carrying it emits the failure
ready frame with no bytes written. -/
theorem pathSafety_amended_witness :
    normalizeTransferPath "../x" = .error "invalid relative path" ∧
    (receiveSession (fun _ => "cafe") ⟨"/out", false, none, none⟩ ⟨none, none, 0, 0⟩
        ⟨.ok ⟨"header", 1, "../x", 1, "cafe", none⟩, none, [[5]], 0⟩).result =
      .readyFail "invalid relative path" ∧
    (receiveSession (fun _ => "cafe") ⟨"/out", false, none, none⟩ ⟨none, none, 0, 0⟩
        ⟨.ok ⟨"header", 1, "../x", 1, "cafe", none⟩, none, [[5]], 0⟩).writtenBytes = [] :=
  ⟨(pathSafety_amended "../x").1.mpr (by decide),
   ((pathSafety_amended "../x").2.2 (fun _ => "cafe") ⟨"/out", false, none, none⟩
      ⟨none, none, 0, 0⟩ ⟨.ok ⟨"header", 1, "../x", 1, "cafe", none⟩, none, [[5]], 0⟩
      ⟨"header", 1, "../x", 1, "cafe", none⟩ rfl rfl rfl rfl (by decide) (by decide)
      rfl (by decide)).1,
   ((pathSafety_amended "../x").2.2 (fun _ => "cafe") ⟨"/out", false, none, none⟩
      ⟨none, none, 0, 0⟩ ⟨.ok ⟨"header", 1, "../x", 1, "cafe", none⟩, none, [[5]], 0⟩
      ⟨"header", 1, "../x", 1, "cafe", none⟩ rfl rfl rfl rfl (by decide) (by decide)
      rfl (by decide)).2.1⟩
